import Mathlib

/-!
Shallow embedding of `src/index.ts` of `webheroesinc/js-http-errors`:
the `HttpError` class (constructor, `toResponse`, `HttpError.fromResponse`)
and the `MissingFieldError` subclass.

JSON values produced by `JSON.parse` / consumed by `JSON.stringify` are
modelled by the inductive `Json`.  JavaScript objects are association
lists in insertion order; property assignment during object-literal
construction (including spread) overwrites an existing key in place and
otherwise appends, which `jsAssign` implements.  Since `JSON.parse` applied
to `JSON.stringify` of such a value gives the value back, an outgoing
response's body is recorded directly as the `Json` value it stringifies.
-/

inductive Json where
  | null
  | bool (b : Bool)
  | num (n : Int)
  | str (s : String)
  | arr (xs : List Json)
  | obj (kvs : List (String × Json))
deriving Repr

/-- JavaScript truthiness of a `JSON.parse` result (the `body &&` test). -/
def jsTruthy : Json → Bool
  | .null => false
  | .bool b => b
  | .num n => n != 0
  | .str s => s != ""
  | .arr _ => true
  | .obj _ => true

/-- Whether `typeof v === 'object'` holds for a `JSON.parse` result:
true for objects, arrays, and `null`. -/
def typeofIsObject : Json → Bool
  | .null => true
  | .arr _ => true
  | .obj _ => true
  | _ => false

/-- Property assignment while building a JavaScript object literal
(a JavaScript object never holds two entries with the same key):
overwrite the existing key in place, otherwise append.  Used both for
the JSON body object and for the string-valued header object. -/
def jsAssign {β : Type} : List (String × β) → String → β → List (String × β)
  | [], k, v => [(k, v)]
  | p :: t, k, v => if p.1 = k then (k, v) :: t else p :: jsAssign t k v

/-- Own enumerable properties contributed by `...v` inside an object
literal: an object spreads its entries, an array its indexed elements,
a string its characters; `null`, booleans and numbers spread nothing. -/
def jsSpread : Json → List (String × Json)
  | .obj kvs => kvs
  | .arr xs => (xs.enum).map (fun p => (toString p.1, p.2))
  | .str s => ((s.toList).enum).map (fun p => (toString p.1, Json.str (String.mk [p.2])))
  | _ => []

/-- The possible outcomes of reading one response body twice
(`response.json()` on the original, `responseClone.text()` on the clone):
a body whose text is valid JSON, a body whose text is not valid JSON
(so `json()` rejects and `text()` yields the raw text), and a body whose
reads fail (`json()` and `text()` both reject). -/
inductive Body where
  | valid (j : Json)
  | text (t : String)
  | unreadable
deriving Repr

/-- The web `Response` as this library uses it: numeric status, reason
phrase (`statusText`, the empty string when absent), a body, and headers. -/
structure Response where
  status : Int
  statusText : String
  body : Body
  headers : List (String × String)
deriving Repr

/-- The `HttpError` value: `status`, `message`, optional `details`,
optional `headers`, and the `name` discriminator set by the constructor
from `this.constructor.name`. -/
structure HttpError where
  status : Int
  message : String
  details : Option Json
  headers : Option (List (String × String))
  name : String
deriving Repr

/-- `new HttpError(status, message, details?, headers?)`:
stores the fields and sets `name` to `"HttpError"`. -/
def mkHttpError (status : Int) (message : String)
    (details : Option Json) (headers : Option (List (String × String))) :
    HttpError :=
  { status := status, message := message, details := details,
    headers := headers, name := "HttpError" }

/-- `new MissingFieldError(fieldName, headers?)`: calls the parent
constructor with status 400, the templated message, and
`{ field: fieldName }`; `this.constructor.name` is `"MissingFieldError"`. -/
def mkMissingFieldError (fieldName : String)
    (headers : Option (List (String × String))) : HttpError :=
  { status := 400,
    message := "Missing required field: " ++ fieldName,
    details := some (.obj [("field", .str fieldName)]),
    headers := headers,
    name := "MissingFieldError" }

/-- The body object built by `toResponse`:
`{ error: this.message, ...(this.details || {}) }`. -/
def bodyObject (e : HttpError) : List (String × Json) :=
  (jsSpread (e.details.getD (.obj []))).foldl
    (fun acc p => jsAssign acc p.1 p.2) [("error", .str e.message)]

/-- The headers object built by `toResponse`:
`{ 'content-type': 'application/json', ...(this.headers || {}) }`. -/
def responseHeaders (e : HttpError) : List (String × String) :=
  (e.headers.getD []).foldl
    (fun acc p => jsAssign acc p.1 p.2)
    [("content-type", "application/json")]

/-- `HttpError.prototype.toResponse`: a `Response` whose body is the
JSON-stringified body object, with the error's status and the overlaid
headers.  `new Response` leaves `statusText` empty. -/
def toResponse (e : HttpError) : Response :=
  { status := e.status,
    statusText := "",
    body := .valid (.obj (bodyObject e)),
    headers := responseHeaders e }

/-- Property lookup on a JavaScript object (first entry with the key;
a JavaScript object never holds the same key twice). -/
def jsGet {β : Type} : List (String × β) → String → Option β
  | [], _ => none
  | p :: t, n => if p.1 = n then some p.2 else jsGet t n

/-- `'error' in body && typeof body.error === 'string'` on a parsed JSON
value, returning the string when the test passes.  Arrays and scalars
from `JSON.parse` have no own property named `error`. -/
def stringErrorField : Json → Option String
  | .obj kvs =>
    match jsGet kvs "error" with
    | some (.str s) => some s
    | _ => none
  | _ => none

/-- `response.statusText || 'Unknown Error'`: the fallback message used
when nothing better can be read from the body. -/
def fallbackMessage (r : Response) : String :=
  if r.statusText = "" then "Unknown Error" else r.statusText

/-- `HttpError.fromResponse`: rejects success-range statuses, otherwise
derives message and details from the body through the JSON-then-text
fallback chain and constructs a plain `HttpError`. -/
def fromResponse (r : Response) : Except String HttpError :=
  if 200 ≤ r.status ∧ r.status < 300 then
    .error ("Cannot create HttpError from a successful response (status: "
      ++ toString r.status ++ ")")
  else
    let fallback := fallbackMessage r
    match r.body with
    | .valid j =>
      if jsTruthy j && typeofIsObject j then
        let message :=
          match stringErrorField j with
          | some s => s
          | none => fallback
        .ok (mkHttpError r.status message (some j) none)
      else
        .ok (mkHttpError r.status fallback none none)
    | .text t =>
      .ok (mkHttpError r.status (if t = "" then fallback else t) none none)
    | .unreadable =>
      .ok (mkHttpError r.status fallback none none)

/-! Helper lemmas about `jsAssign` and `jsGet`. -/

theorem jsGet_eq_none_of_not_mem_keys {β : Type} (l : List (String × β))
    (n : String) (h : n ∉ l.map Prod.fst) : jsGet l n = none := by
  induction l with
  | nil => rfl
  | cons p t ih =>
    simp only [List.map_cons, List.mem_cons, not_or] at h
    have hpn : ¬ p.1 = n := fun he => h.1 he.symm
    simp [jsGet, hpn, ih h.2]

theorem jsAssign_jsGet {β : Type} (l : List (String × β)) (k n : String)
    (v : β) :
    jsGet (jsAssign l k v) n = if n = k then some v else jsGet l n := by
  induction l with
  | nil =>
    by_cases h : n = k
    · subst h; simp [jsAssign, jsGet]
    · have h2 : ¬ k = n := fun hh => h hh.symm
      simp [jsAssign, jsGet, h, h2]
  | cons p t ih =>
    by_cases hpk : p.1 = k
    · subst hpk
      by_cases hnk : n = p.1
      · subst hnk; simp [jsAssign, jsGet]
      · have hpn : ¬ p.1 = n := fun h => hnk h.symm
        simp [jsAssign, jsGet, hnk, hpn]
    · by_cases hnk : n = k
      · subst hnk
        simp [jsAssign, jsGet, hpk, ih]
      · by_cases hpn : p.1 = n
        · simp [jsAssign, jsGet, hpk, hpn, ih, hnk]
        · simp [jsAssign, jsGet, hpk, hpn, ih, hnk]

theorem foldl_jsAssign_jsGet {β : Type} (l : List (String × β)) :
    ∀ (acc : List (String × β)) (n : String),
    (l.map Prod.fst).Nodup →
    jsGet (l.foldl (fun a p => jsAssign a p.1 p.2) acc) n =
      (match jsGet l n with
       | some v => some v
       | none => jsGet acc n) := by
  induction l with
  | nil => intro acc n _; rfl
  | cons p t ih =>
    intro acc n hn
    simp only [List.map_cons, List.nodup_cons] at hn
    simp only [List.foldl_cons]
    rw [ih _ n hn.2]
    by_cases hnp : n = p.1
    · rw [hnp, jsGet_eq_none_of_not_mem_keys t p.1 hn.1]
      simp [jsGet, jsAssign_jsGet]
    · have hpn : ¬ p.1 = n := fun h => hnp h.symm
      simp only [jsGet, if_neg hpn, jsAssign_jsGet, if_neg hnp]

theorem jsAssign_append {β : Type} (acc : List (String × β)) (k : String)
    (v : β) (h : k ∉ acc.map Prod.fst) : jsAssign acc k v = acc ++ [(k, v)] := by
  induction acc with
  | nil => rfl
  | cons p t ih =>
    simp only [List.map_cons, List.mem_cons, not_or] at h
    have hpk : ¬ p.1 = k := fun he => h.1 he.symm
    simp [jsAssign, hpk, ih h.2]

theorem foldl_jsAssign_append {β : Type} (l : List (String × β)) :
    ∀ (acc : List (String × β)),
    (∀ x ∈ l.map Prod.fst, x ∉ acc.map Prod.fst) →
    (l.map Prod.fst).Nodup →
    l.foldl (fun a p => jsAssign a p.1 p.2) acc = acc ++ l := by
  induction l with
  | nil => intro acc _ _; simp
  | cons p t ih =>
    intro acc hd hn
    simp only [List.map_cons, List.nodup_cons] at hn
    simp only [List.foldl_cons]
    rw [jsAssign_append acc p.1 p.2 (hd p.1 (by simp))]
    rw [ih (acc ++ [(p.1, p.2)]) ?_ hn.2]
    · simp
    · intro x hx
      simp only [List.map_append, List.mem_append, not_or]
      refine ⟨hd x (by simp [hx]), ?_⟩
      simp only [List.map_cons, List.map_nil, List.mem_singleton]
      intro hxe
      exact hn.1 (hxe ▸ hx)

/-- Every value `fromResponse` returns was built by the plain `HttpError`
constructor with the response's status and no headers. -/
theorem fromResponse_ok_fields (r : Response) (e : HttpError)
    (h : fromResponse r = .ok e) :
    e.status = r.status ∧ e.headers = none ∧ e.name = "HttpError" := by
  unfold fromResponse at h
  by_cases hs : 200 ≤ r.status ∧ r.status < 300
  · rw [if_pos hs] at h
    exact absurd h (by simp)
  · rw [if_neg hs] at h
    cases hb : r.body <;> rw [hb] at h <;> dsimp only at h
    · split at h <;> (injection h with h; subst h; exact ⟨rfl, rfl, rfl⟩)
    · injection h with h; subst h; exact ⟨rfl, rfl, rfl⟩
    · injection h with h; subst h; exact ⟨rfl, rfl, rfl⟩

/-- C1 (amended): because `toResponse` writes `error: message` first and
then spreads `details` over it, a colliding `error` entry inside
`details` wins: the serialized body's `error` key holds the details
value, not the message. -/
theorem serialized_error_key_prefers_details (e : HttpError)
    (d : List (String × Json)) (v : Json)
    (hd : e.details = some (.obj d)) (hn : (d.map Prod.fst).Nodup)
    (hv : jsGet d "error" = some v) :
    jsGet (bodyObject e) "error" = some v := by
  unfold bodyObject
  rw [hd]
  dsimp only [Option.getD, jsSpread]
  rw [foldl_jsAssign_jsGet d _ "error" hn, hv]

/-- C1 witness: a details mapping carrying `error: "from details"`
overrides the message in the serialized body. -/
theorem serialized_error_key_prefers_details_witness :
    jsGet (bodyObject (mkHttpError 500 "the message"
      (some (.obj [("error", .str "from details")])) none)) "error"
      = some (.str "from details") :=
  serialized_error_key_prefers_details _ [("error", .str "from details")]
    (.str "from details") rfl (by simp) (by simp [jsGet])

/-- C1 counterexample: for the error with message `"the message"` and
details `{error: "from details"}`, the serialized body's `error` key
holds `"from details"`, not the message, refuting the claim that the
explicit message wins over the colliding details entry. -/
theorem serialized_error_key_counterexample :
    jsGet (bodyObject (mkHttpError 500 "the message"
      (some (.obj [("error", .str "from details")])) none)) "error"
      = some (.str "from details") ∧
    jsGet (bodyObject (mkHttpError 500 "the message"
      (some (.obj [("error", .str "from details")])) none)) "error"
      ≠ some (.str "the message") := by
  have heval : jsGet (bodyObject (mkHttpError 500 "the message"
      (some (.obj [("error", .str "from details")])) none)) "error"
      = some (.str "from details") := by
    simp [bodyObject, mkHttpError, jsSpread, jsAssign, jsGet]
  refine ⟨heval, ?_⟩
  rw [heval]
  intro h
  simp at h

/-- C2 (amended): for a non-success response whose body parses as JSON
but not as a JSON object, the message falls back to the reason phrase or
`"Unknown Error"`; `details` remains absent when the value is a string,
number, boolean or null, but a parsed array becomes `details` (an array
passes the runtime `typeof === 'object'` test). -/
theorem deserialize_non_object_json (r : Response) (j : Json)
    (hs : ¬ (200 ≤ r.status ∧ r.status < 300)) (hb : r.body = .valid j) :
    (match j with
     | .obj _ => True
     | .arr xs => fromResponse r =
        .ok (mkHttpError r.status (fallbackMessage r) (some (.arr xs)) none)
     | _ => fromResponse r =
        .ok (mkHttpError r.status (fallbackMessage r) none none)) := by
  obtain ⟨st, sx, b, hd⟩ := r
  dsimp only at hb hs ⊢
  subst hb
  unfold fromResponse
  dsimp only
  rw [if_neg hs]
  cases j <;> simp [jsTruthy, typeofIsObject, stringErrorField]

/-- C2 witness: a body parsing as the JSON string `"x"` leaves details
absent and the message falls back to the reason phrase. -/
theorem deserialize_non_object_json_witness :
    fromResponse { status := 404, statusText := "NF",
                   body := .valid (.str "x"), headers := [] } =
      .ok (mkHttpError 404 "NF" none none) :=
  deserialize_non_object_json _ (.str "x") (by decide) rfl

/-- C2 counterexample: a body parsing as the JSON array `[1]` on a 400
response yields a value whose details are the array, not absent,
refuting the claim that details remain absent for every non-object JSON
value. -/
theorem deserialize_array_counterexample :
    fromResponse { status := 400, statusText := "Bad Request",
                   body := .valid (.arr [.num 1]), headers := [] } =
      .ok (mkHttpError 400 "Bad Request" (some (.arr [.num 1])) none) ∧
    (mkHttpError 400 "Bad Request" (some (.arr [.num 1])) none).details
      ≠ none := by
  refine ⟨?_, by simp [mkHttpError]⟩
  rfl

/-- C3: `fromResponse` fails exactly on statuses in [200, 300): there it
returns an error naming the observed status and no value, and on every
status outside that range it returns a constructed `HttpError` no matter
what the body holds. -/
theorem deserialize_success_range (r : Response) :
    (200 ≤ r.status ∧ r.status < 300 →
      fromResponse r = .error
        ("Cannot create HttpError from a successful response (status: "
          ++ toString r.status ++ ")")) ∧
    (¬ (200 ≤ r.status ∧ r.status < 300) →
      ∃ e, fromResponse r = .ok e) := by
  obtain ⟨st, sx, b, hd⟩ := r
  dsimp only
  constructor
  · intro hs
    unfold fromResponse
    rw [if_pos hs]
  · intro hs
    unfold fromResponse
    rw [if_neg hs]
    cases b <;> dsimp only
    · split
      · exact ⟨_, rfl⟩
      · exact ⟨_, rfl⟩
    · exact ⟨_, rfl⟩
    · exact ⟨_, rfl⟩

/-- C3 witness: status 250 is rejected with a message naming it; status
404 yields a value even for an unreadable body. -/
theorem deserialize_success_range_witness :
    fromResponse { status := 250, statusText := "", body := .unreadable, headers := [] }
      = .error "Cannot create HttpError from a successful response (status: 250)" ∧
    ∃ e, fromResponse { status := 404, statusText := "", body := .unreadable, headers := [] }
      = .ok e :=
  ⟨(deserialize_success_range _).1 (by decide),
   (deserialize_success_range _).2 (by decide)⟩

/-- C4: round-trip.  Serializing a constructed error whose details have
no `error` key and deserializing the result restores the status and the
message, and makes the details the mapping `(error: message, ...details)`. -/
theorem roundtrip_serialize_deserialize (status : Int) (message : String)
    (details : List (String × Json))
    (h4 : 400 ≤ status) (h5 : status ≤ 599)
    (he : "error" ∉ details.map Prod.fst)
    (hn : (details.map Prod.fst).Nodup) :
    fromResponse (toResponse (mkHttpError status message (some (.obj details)) none)) =
      .ok (mkHttpError status message
        (some (.obj (("error", .str message) :: details))) none) := by
  have hbody : bodyObject (mkHttpError status message (some (.obj details)) none) =
      ("error", .str message) :: details := by
    unfold bodyObject mkHttpError
    dsimp only [Option.getD, jsSpread]
    rw [foldl_jsAssign_append details _ ?_ hn]
    · rfl
    · intro x hx
      simp only [List.map_cons, List.map_nil, List.mem_singleton]
      intro hxe
      exact he (hxe ▸ hx)
  unfold toResponse
  rw [hbody]
  unfold fromResponse
  dsimp only [mkHttpError]
  rw [if_neg (by omega : ¬ (200 ≤ status ∧ status < 300))]
  simp [jsTruthy, typeofIsObject, stringErrorField, jsGet, mkHttpError]

/-- C4 witness: a concrete 404 with one details entry round-trips. -/
theorem roundtrip_serialize_deserialize_witness :
    fromResponse (toResponse (mkHttpError 404 "m"
        (some (.obj [("field", .str "email")])) none)) =
      .ok (mkHttpError 404 "m"
        (some (.obj [("error", .str "m"), ("field", .str "email")])) none) :=
  roundtrip_serialize_deserialize 404 "m" [("field", .str "email")]
    (by decide) (by decide) (by simp) (by simp)

/-- C5: a non-success response parsing as a JSON object yields a value
whose message is the object's `error` entry when that entry is a string
(otherwise the reason-phrase fallback) and whose details are the whole
parsed object, the `error` entry included. -/
theorem deserialize_json_object (r : Response) (kvs : List (String × Json))
    (hs : ¬ (200 ≤ r.status ∧ r.status < 300)) (hb : r.body = .valid (.obj kvs)) :
    fromResponse r = .ok (mkHttpError r.status
      (match jsGet kvs "error" with
       | some (.str s) => s
       | _ => fallbackMessage r)
      (some (.obj kvs)) none) := by
  obtain ⟨st, sx, b, hd⟩ := r
  dsimp only at hb hs ⊢
  subst hb
  unfold fromResponse
  rw [if_neg hs]
  cases h : jsGet kvs "error" with
  | none => simp [jsTruthy, typeofIsObject, stringErrorField, h]
  | some v => cases v <;> simp [jsTruthy, typeofIsObject, stringErrorField, h]

/-- C5 witness: `{error: "Bad request", field: "email"}` on a 400 gives
message `"Bad request"` and the whole object as details. -/
theorem deserialize_json_object_witness :
    fromResponse { status := 400, statusText := "X",
                   body := .valid (.obj [("error", .str "Bad request"), ("field", .str "email")]),
                   headers := [] } =
      .ok (mkHttpError 400 "Bad request"
        (some (.obj [("error", .str "Bad request"), ("field", .str "email")])) none) :=
  deserialize_json_object _ [("error", .str "Bad request"), ("field", .str "email")]
    (by decide) rfl

/-- C6: on JSON parse failure the preserved body copy is read as text: a
non-empty text becomes the message verbatim with no details; an empty
text or a failing read falls back to the reason phrase / "Unknown
Error", the failure is swallowed, and a value is still returned. -/
theorem deserialize_text_fallback (r : Response)
    (hs : ¬ (200 ≤ r.status ∧ r.status < 300)) :
    (∀ t, r.body = .text t → t ≠ "" →
      fromResponse r = .ok (mkHttpError r.status t none none)) ∧
    (r.body = .text "" →
      fromResponse r = .ok (mkHttpError r.status (fallbackMessage r) none none)) ∧
    (r.body = .unreadable →
      fromResponse r = .ok (mkHttpError r.status (fallbackMessage r) none none)) := by
  obtain ⟨st, sx, b, hd⟩ := r
  dsimp only at hs ⊢
  refine ⟨?_, ?_, ?_⟩
  · intro t hb ht
    subst hb
    unfold fromResponse
    rw [if_neg hs]
    simp [ht]
  · intro hb
    subst hb
    unfold fromResponse
    rw [if_neg hs]
    simp
  · intro hb
    subst hb
    unfold fromResponse
    rw [if_neg hs]

/-- C6 witness: text body `"boom"`, empty text body, and a failing read
on 500 responses. -/
theorem deserialize_text_fallback_witness :
    fromResponse { status := 500, statusText := "ISE", body := .text "boom", headers := [] }
      = .ok (mkHttpError 500 "boom" none none) ∧
    fromResponse { status := 500, statusText := "ISE", body := .text "", headers := [] }
      = .ok (mkHttpError 500 "ISE" none none) ∧
    fromResponse { status := 500, statusText := "ISE", body := .unreadable, headers := [] }
      = .ok (mkHttpError 500 "ISE" none none) :=
  ⟨(deserialize_text_fallback _ (by decide)).1 "boom" rfl (by decide),
   (deserialize_text_fallback _ (by decide)).2.1 rfl,
   (deserialize_text_fallback _ (by decide)).2.2 rfl⟩

/-- C7: the serialized headers start from the single base pair
`content-type: application/json` and overlay every caller header, so a
caller entry with the same name as the default replaces it; in
particular `{'content-type': 'text/plain'}` overrides the default. -/
theorem serialize_header_overlay (e : HttpError) (hs : List (String × String))
    (he : e.headers = some hs) (hn : (hs.map Prod.fst).Nodup) :
    (jsGet (toResponse e).headers "content-type" =
      some ((jsGet hs "content-type").getD "application/json")) ∧
    (∀ n, n ≠ "content-type" → jsGet (toResponse e).headers n = jsGet hs n) ∧
    jsGet (toResponse (mkHttpError 400 "Bad request" none
      (some [("content-type", "text/plain")]))).headers "content-type"
      = some "text/plain" := by
  have hh : (toResponse e).headers = hs.foldl (fun a p => jsAssign a p.1 p.2)
      [("content-type", "application/json")] := by
    dsimp only [toResponse, responseHeaders]
    rw [he]
    rfl
  refine ⟨?_, ?_, by simp [toResponse, responseHeaders, mkHttpError, jsAssign, jsGet]⟩
  · rw [hh, foldl_jsAssign_jsGet hs _ _ hn]
    cases h : jsGet hs "content-type" <;> simp [jsGet]
  · intro n hne
    have hcn : ¬ ("content-type" = n) := fun hq => hne hq.symm
    rw [hh, foldl_jsAssign_jsGet hs _ _ hn]
    cases h : jsGet hs n <;> simp [jsGet, hcn]

/-- C7 witness: a caller header that does not collide is appended and
the default content-type survives. -/
theorem serialize_header_overlay_witness :
    jsGet (toResponse (mkHttpError 401 "U" none (some [("x-a", "1")]))).headers
      "content-type" = some "application/json" :=
  (serialize_header_overlay _ [("x-a", "1")] rfl (by simp)).1

/-- C8: `MissingFieldError` fixes status 400, the interpolated message,
details `{field: fieldName}`, passes headers through, and serializes to
the body `{error: message, field: fieldName}`. -/
theorem missing_field_error_shape (fieldName : String)
    (headers : Option (List (String × String))) :
    (mkMissingFieldError fieldName headers).status = 400 ∧
    (mkMissingFieldError fieldName headers).message =
      "Missing required field: " ++ fieldName ∧
    (mkMissingFieldError fieldName headers).details =
      some (.obj [("field", .str fieldName)]) ∧
    (mkMissingFieldError fieldName headers).headers = headers ∧
    bodyObject (mkMissingFieldError fieldName headers) =
      [("error", .str ("Missing required field: " ++ fieldName)),
       ("field", .str fieldName)] := by
  refine ⟨rfl, rfl, rfl, rfl, ?_⟩
  simp [bodyObject, mkMissingFieldError, jsSpread, jsAssign]

/-- C9: every value `fromResponse` returns carries the incoming status
unvalidated and has no headers. -/
theorem deserialize_status_passthrough (r : Response) (e : HttpError)
    (h : fromResponse r = .ok e) :
    e.status = r.status ∧ e.headers = none :=
  ⟨(fromResponse_ok_fields r e h).1, (fromResponse_ok_fields r e h).2.1⟩

/-- C9 witness: even status 0 passes through, with no headers. -/
theorem deserialize_status_passthrough_witness :
    (mkHttpError 0 "Unknown Error" none none).status = 0 ∧
    (mkHttpError 0 "Unknown Error" none none).headers = none :=
  deserialize_status_passthrough
    { status := 0, statusText := "", body := .unreadable, headers := [] } _ rfl

/-- C10: the name discriminator is fixed at construction: `"HttpError"`
for the base constructor and every deserialized value, and
`"MissingFieldError"` for the missing-field variant; values are
immutable, so no operation changes it afterwards. -/
theorem name_discriminator (status : Int) (message : String)
    (details : Option Json) (hdrs hdrs2 : Option (List (String × String)))
    (fieldName : String) (r : Response) (e : HttpError) :
    (mkHttpError status message details hdrs).name = "HttpError" ∧
    (mkMissingFieldError fieldName hdrs2).name = "MissingFieldError" ∧
    (fromResponse r = .ok e → e.name = "HttpError") :=
  ⟨rfl, rfl, fun h => (fromResponse_ok_fields r e h).2.2⟩

/-- C10 witness: the three name facts at concrete values. -/
theorem name_discriminator_witness :
    (mkHttpError 404 "NF" none none).name = "HttpError" ∧
    (mkMissingFieldError "email" none).name = "MissingFieldError" ∧
    (mkHttpError 403 "Unknown Error" none none).name = "HttpError" := by
  have h := name_discriminator 404 "NF" none none none "email"
    { status := 403, statusText := "", body := .unreadable, headers := [] }
    (mkHttpError 403 "Unknown Error" none none)
  exact ⟨h.1, h.2.1, h.2.2 rfl⟩
